import Mathlib

/-!
Shallow embedding of the commit classification and summarization pipeline of
the Readme_Generator repository (readme_generator.py, summarizer.py,
readme_generator/parser.py, readme_generator/summarizer.py).

Conventions of the embedding:
* Python `str` values are Lean `String`s; internal text processing works on
  `List Char` (the logical model of `String`) so that every definition is
  structurally recursive and kernel-evaluable.
* The optional NLP libraries (nltk, spaCy) are external collaborators; the
  source guards every use behind `if nltk:` / `if NLP:` and provides a pure
  fallback branch.  The embedding models the fallback branches, which are the
  only ones that are code of this repository.
* Python dicts (`collections.defaultdict(list)` etc.) are modelled as
  association lists in insertion order, which is exactly Python's dict
  iteration order.
-/

namespace ReadmeGen

/-! ### Python string primitives -/

/-- Python `str.isspace` characters relevant to `str.strip` / `str.split`:
space, tab, newline, vertical tab, form feed, carriage return. -/
def pyIsSpace (c : Char) : Bool :=
  c = ' ' || c = '\t' || c = '\n' || c = '\x0b' || c = '\x0c' || c = '\r'

/-- ASCII lower-casing of one character (Python `str.lower` restricted to
ASCII, which covers every keyword the source compares against). -/
def lowerChar (c : Char) : Char :=
  if 'A' ≤ c ∧ c ≤ 'Z' then Char.ofNat (c.toNat + 32) else c

/-- Python `str.lower` (ASCII fragment). -/
def pyLower (s : String) : String := ⟨s.data.map lowerChar⟩

/-- Strip `pyIsSpace` characters from both ends of a character list. -/
def pyStripList (l : List Char) : List Char :=
  ((l.dropWhile pyIsSpace).reverse.dropWhile pyIsSpace).reverse

/-- Python `str.strip()`. -/
def pyStrip (s : String) : String := ⟨pyStripList s.data⟩

/-- Helper for `pySplitLines`: accumulates the current line (reversed) and
splits at `'\n'`; a trailing newline produces no final empty line, matching
Python `str.splitlines`. -/
def splitLinesAux : List Char → List Char → List (List Char)
  | [], acc => [acc.reverse]
  | c :: cs, acc =>
    if c = '\n' then
      acc.reverse :: (if cs.isEmpty then [] else splitLinesAux cs [])
    else
      splitLinesAux cs (c :: acc)

/-- Python `str.splitlines()` (with `'\n'` as the line separator; the other
exotic separators never occur in the inputs this development evaluates). -/
def pySplitLines (s : String) : List String :=
  if s.data.isEmpty then [] else (splitLinesAux s.data []).map String.mk

/-- Helper for `pySplit`: split on runs of whitespace, discarding empties,
as Python `str.split()` with no arguments does. -/
def wsSplitAux : List Char → List Char → List (List Char)
  | [], acc => if acc.isEmpty then [] else [acc.reverse]
  | c :: cs, acc =>
    if pyIsSpace c then
      if acc.isEmpty then wsSplitAux cs [] else acc.reverse :: wsSplitAux cs []
    else
      wsSplitAux cs (c :: acc)

/-- Python `str.split()` (no separator argument). -/
def pySplit (s : String) : List String := (wsSplitAux s.data []).map String.mk

/-- Regex word characters `\w` (ASCII fragment): alphanumerics and `'_'`. -/
def isWordChar (c : Char) : Bool := c.isAlphanum || c = '_'

/-- Does `needle` occur as a contiguous sublist of the haystack?
Models Python's substring test `needle in hay`. -/
def containsSub (needle : List Char) : List Char → Bool
  | [] => needle.isEmpty
  | c :: t => needle.isPrefixOf (c :: t) || containsSub needle t

/-- Python `sub in s` for strings. -/
def strContains (s sub : String) : Bool := containsSub sub.data s.data

/-- Python `s.startswith(p)`. -/
def strStartsWith (s p : String) : Bool := p.data.isPrefixOf s.data

/-- Helper for `pyWordRuns`: maximal runs of `\w` characters. -/
def wordRunsAux : List Char → List Char → List (List Char)
  | [], acc => if acc.isEmpty then [] else [acc.reverse]
  | c :: cs, acc =>
    if isWordChar c then wordRunsAux cs (c :: acc)
    else if acc.isEmpty then wordRunsAux cs [] else acc.reverse :: wordRunsAux cs []

/-- The maximal `\w`-runs of a string.  A regex `\b(w)\b` search for a keyword
`w` consisting of word characters succeeds exactly when `w` is one of these
runs. -/
def pyWordRuns (s : String) : List String := (wordRunsAux s.data []).map String.mk

/-- `re.sub(r"\W+", "", w)`: delete every non-word character of `w`. -/
def stripNonWord (s : String) : String := ⟨s.data.filter isWordChar⟩

/-! ### CommitInfo (readme_generator/models.py / readme_generator.py)

The `date` field is an opaque timestamp never inspected by the summarization
core; it is modelled as a `Nat`. -/

structure CommitInfo where
  sha : String
  author : Option String
  date : Nat
  message : String
deriving DecidableEq, Repr

/-! ### CommitParser (readme_generator/parser.py lines 15-49; the copy in
readme_generator.py lines 140-174 is textually identical) -/

namespace CommitParser

/-- The type keywords of `CONVENTIONAL_RE`, in the regex's alternation
order.  None is a prefix of another, so at most one can match. -/
def conventionalTypes : List String :=
  ["feat", "fix", "docs", "style", "refactor", "perf", "test", "chore"]

/-- Case-insensitive literal-prefix match: if the lower-cased `l` starts with
`kw`, return the remainder. -/
def stripTypeKw (kw : String) (l : List Char) : Option (List Char) :=
  if (l.take kw.length).map lowerChar = kw.data then some (l.drop kw.length) else none

/-- The `\s*(?P<desc>.+)` tail of `CONVENTIONAL_RE` applied to the text after
the colon.  The greedy `\s*` backs off just enough for `.+` to match at least
one character: on a remainder with a non-space character the group is the
remainder with leading spaces dropped; on a non-empty all-space remainder the
group is the last character; on an empty remainder the whole regex fails. -/
def descGroup (rest : List Char) : Option (List Char) :=
  if rest.isEmpty then none
  else
    let d := rest.dropWhile pyIsSpace
    if d.isEmpty then
      match rest.reverse with
      | [] => none
      | c :: _ => some [c]
    else some d

/-- The `(\((?P<scope>[^)]+)\))?(!)?:` middle of `CONVENTIONAL_RE` followed by
the description tail, applied to the text after the type keyword.  When the
optional scope or bang group is present but the following `':'` is absent the
regex backtracks into the group-skipped alternative, which then fails on the
same character; so the sequential reading below is exact. -/
def afterType (l : List Char) : Option (Option String × List Char) :=
  match l with
  | '(' :: l1 =>
    let content := l1.takeWhile (fun c => c ≠ ')')
    if content.isEmpty then none
    else
      match l1.drop content.length with
      | ')' :: l2 =>
        (match l2 with
         | '!' :: ':' :: l3 => (descGroup l3).map (fun d => (some (String.mk content), d))
         | ':' :: l3 => (descGroup l3).map (fun d => (some (String.mk content), d))
         | _ => none)
      | _ => none
  | '!' :: ':' :: l1 => (descGroup l1).map (fun d => (none, d))
  | ':' :: l1 => (descGroup l1).map (fun d => (none, d))
  | _ => none

/-- `CONVENTIONAL_RE.match(first)`: on success, the lower-cased type, the
optional scope group and the raw `desc` group. -/
def matchConventional (first : String) : Option (String × Option String × String) :=
  conventionalTypes.findSome? fun kw =>
    (stripTypeKw kw first.data).bind fun rest =>
      (afterType rest).map fun (scope, d) => (kw, scope, String.mk d)

/-- The fallback keyword priority tuple of `CommitParser.parse`. -/
def fallbackTypes : List String :=
  ["feat", "fix", "docs", "refactor", "perf", "test", "style"]

/-- One fallback test: `lowered.startswith(t) or f"{t}:" in lowered or
t in lowered.split()`. -/
def fallbackHit (t : String) (lowered : String) : Bool :=
  strStartsWith lowered t || strContains lowered (t ++ ":") || (pySplit lowered).contains t

/-- The fallback `for`-loop of `CommitParser.parse`: first hit wins, default
`"chore"`. -/
def fallbackGuess (lowered : String) : String :=
  match fallbackTypes.find? (fun t => fallbackHit t lowered) with
  | some t => t
  | none => "chore"

/-- `"\n".join(lines)`. -/
def joinNL (lines : List String) : String := String.intercalate "\n" lines

/-- `CommitParser.parse`: returns `(type, scope, short_description, body)`. -/
def parse (message : String) : String × Option String × String × Option String :=
  let lines := pySplitLines message
  let first := lines.headD ""
  let body : Option String :=
    if lines.length > 1 then some (pyStrip (joinNL (lines.drop 1))) else none
  match matchConventional first with
  | some (ctype, scope, d) => (ctype, scope, pyStrip d, body)
  | none => (fallbackGuess (pyLower first), none, pyStrip first, body)

/-- The category component of `parse`. -/
def parseCat (message : String) : String := (parse message).1

/-- The short-description component of `parse`. -/
def parseDesc (message : String) : String := (parse message).2.2.1

end CommitParser

/-! ### Insertion-ordered dictionaries

`collections.defaultdict(list)` together with `d[k].append(v)`, modelled as an
association list: an existing key has the value appended, a new key goes to
the end (Python dict iteration order is insertion order). -/

/-- `d[k].append(v)` on a `defaultdict(list)`. -/
def dictAppend {α : Type} (m : List (String × List α)) (k : String) (v : α) :
    List (String × List α) :=
  match m with
  | [] => [(k, [v])]
  | (k', vs) :: rest =>
    if k' = k then (k', vs ++ [v]) :: rest else (k', vs) :: dictAppend rest k v

/-- Keys of an association list, in order. -/
def dictKeys {α : Type} (m : List (String × List α)) : List String := m.map Prod.fst

/-! ### Stable descending sort

Python `list.sort(key=..., reverse=True)` is a stable sort; modelled as
insertion sort that puts each element before the first strictly smaller key,
hence after every earlier element of equal key. -/

/-- The before-or-tied relation of a descending sort by `key`. -/
def descRel {α : Type} (key : α → Nat) (a b : α) : Prop := key b ≤ key a

instance {α : Type} (key : α → Nat) : DecidableRel (descRel key) :=
  fun a b => Nat.decLe (key b) (key a)

/-- Stable sort by `key`, descending: insertion sort placing each element
before the first strictly smaller key, hence after every earlier element of
equal key — the behaviour of Python's stable `list.sort(key=..,
reverse=True)`. -/
def sortDesc {α : Type} (key : α → Nat) (l : List α) : List α :=
  l.insertionSort (descRel key)

/-- Generic first-occurrence de-duplication (dict/`Counter` insertion order,
and `seen`-set loops in the source). -/
def dedupFirstAux (seen : List String) : List String → List String
  | [] => []
  | x :: xs =>
    if seen.contains x then dedupFirstAux seen xs
    else x :: dedupFirstAux (x :: seen) xs

/-- First occurrence of every string, in order. -/
def dedupFirst (l : List String) : List String := dedupFirstAux [] l

/-! ### CommitSummarizer, bullet form (readme_generator.py lines 177-284) -/

namespace BulletSummarizer

/-- `set(stopwords.words("english")) if nltk else set()`: the nltk-absent
branch is the empty set. -/
def stop_words : List String := []

/-- Tokenization of one candidate in `_rank_candidates`, nltk-absent branch:
`cand.lower().split()`, then `re.sub(r"\W+", "", w)` on each token, keeping
the non-empty results. -/
def tokenize (cand : String) : List String :=
  ((pySplit (pyLower cand)).map stripNonWord).filter (fun w => ¬ w.isEmpty)

/-- `filtered = [w for w in words if w not in stop_words]`. -/
def filteredTokens (cand : String) : List String :=
  (tokenize cand).filter (fun w => ¬ stop_words.contains w)

/-- `word_freq` as a lookup function: `word_freq.get(t, 0)` is the number of
occurrences of `t` across the filtered tokens of all candidates. -/
def wordFreq (candidates : List String) (t : String) : Nat :=
  (candidates.flatMap filteredTokens).count t

/-- `score = sum(word_freq.get(t, 0) for t in tokens)`. -/
def score (candidates : List String) (cand : String) : Nat :=
  ((filteredTokens cand).map (wordFreq candidates)).sum

/-- The case-insensitive `seen`-set de-duplication loop of
`_rank_candidates`. -/
def dedupCIAux (seen : List String) : List String → List String
  | [] => []
  | c :: cs =>
    if seen.contains (pyLower c) then dedupCIAux seen cs
    else c :: dedupCIAux (pyLower c :: seen) cs

/-- De-duplicate, case-insensitively, keeping first occurrences. -/
def dedupCI (l : List String) : List String := dedupCIAux [] l

/-- `CommitSummarizer._rank_candidates`: early-return `[]` on an empty list,
otherwise stable sort by score descending followed by case-insensitive
de-duplication.  The frequency table is built over the input itself. -/
def rankCandidates (candidates : List String) : List String :=
  if candidates.isEmpty then []
  else dedupCI (sortDesc (score candidates) candidates)

/-- The grouping loop of `CommitSummarizer.summarize` (and, identically,
`CommitCategorizer.categorize` of readme_generator/parser.py lines 63-80). -/
def groupByType (commits : List CommitInfo) : List (String × List CommitInfo) :=
  commits.foldl (fun acc c => dictAppend acc (CommitParser.parseCat c.message) c) []

/-- Candidate gathering of `CommitSummarizer.summarize`: for each commit its
description (if truthy) and, if the body is truthy, the first sentence of the
body (nltk-absent branch: `body.split("\n")[0]`). -/
def candidatesOf (items : List CommitInfo) : List String :=
  items.flatMap fun c =>
    let p := CommitParser.parse c.message
    (if ¬ p.2.2.1.isEmpty then [p.2.2.1] else []) ++
    (match p.2.2.2 with
     | some b => if ¬ b.isEmpty then [String.mk (b.data.takeWhile (fun ch => ch ≠ '\n'))] else []
     | none => [])

/-- `CommitSummarizer.summarize` (bullet mode): group by parsed type, rank
each group's candidates, keep the top `topN` (the source default is 5). -/
def summarize (commits : List CommitInfo) (topN : Nat) : List (String × List String) :=
  (groupByType commits).map fun g => (g.1, (rankCandidates (candidatesOf g.2)).take topN)

end BulletSummarizer

/-! ### CommitCategorizer (readme_generator/parser.py lines 52-80) -/

namespace CommitCategorizer

/-- `CommitCategorizer.categorize`: the same `defaultdict(list)` grouping loop
as the bullet summarizer; the final `dict(groups)` conversion is the
identity on contents. -/
def categorize (commits : List CommitInfo) : List (String × List CommitInfo) :=
  BulletSummarizer.groupByType commits

end CommitCategorizer

/-! ### categorize_commits (summarizer.py lines 24-61) -/

namespace TopSummarizer

def featureKws : List String := ["add", "implement", "introduce", "support", "feature"]
def fixKws : List String := ["fix", "bug", "issue", "error", "crash", "resolve"]
def docKws : List String := ["doc", "readme", "guide", "tutorial"]
def refactorKws : List String := ["refactor", "restructure", "cleanup", "format"]
def testKws : List String := ["test", "coverage", "ci", "pipeline"]

/-- `re.search(r"\b(k1|k2|...)\b", s)`: since every keyword consists of word
characters, the search succeeds exactly when some keyword is a maximal
`\w`-run of `s`. -/
def wordSearch (kws : List String) (s : String) : Bool :=
  kws.any (fun k => (pyWordRuns s).contains k)

/-- The category assigned to one message by the `categorize_commits` loop. -/
def categorizeOne (msg : String) : String :=
  let lowered := pyStrip (pyLower msg)
  if strStartsWith lowered "feat" then "features"
  else if strStartsWith lowered "fix" then "fixes"
  else if strStartsWith lowered "docs" then "docs"
  else if strStartsWith lowered "refactor" then "refactor"
  else if strStartsWith lowered "test" then "tests"
  else if wordSearch featureKws lowered then "features"
  else if wordSearch fixKws lowered then "fixes"
  else if wordSearch docKws lowered then "docs"
  else if wordSearch refactorKws lowered then "refactor"
  else if wordSearch testKws lowered then "tests"
  else "other"

/-- `categorize_commits`: appends each original message to its category. -/
def categorize_commits (commits : List String) : List (String × List String) :=
  commits.foldl (fun acc m => dictAppend acc (categorizeOne m) m) []

/-- The correspondence between the category vocabularies of the two
classifier implementations: `CommitParser.parse` uses Conventional-Commit
tags, `categorize_commits` uses section names.  Tags without a section
(`perf`, `style`, `chore`) fall into the catch-all. -/
def toSectionName (tag : String) : String :=
  if tag = "feat" then "features"
  else if tag = "fix" then "fixes"
  else if tag = "docs" then "docs"
  else if tag = "refactor" then "refactor"
  else if tag = "test" then "tests"
  else "other"

end TopSummarizer

/-! ### CommitSummarizer, narrative form (readme_generator/summarizer.py) -/

namespace NarrativeSummarizer

/-! #### `_extract_themes` (lines 148-175) -/

def authTerms : List String :=
  ["auth", "login", "signup", "user", "security", "token", "oauth", "permission"]
def apiTerms : List String :=
  ["api", "endpoint", "request", "response", "server", "backend", "service", "route"]
def uiTerms : List String :=
  ["ui", "interface", "component", "view", "frontend", "react", "vue", "angular", "css", "html"]
def perfTerms : List String :=
  ["cache", "performance", "optimization", "speed", "memory", "efficient", "fast"]
def dataTerms : List String :=
  ["database", "db", "sql", "query", "data", "model", "schema", "migration"]

/-- `any(term in desc_lower for term in [...])`. -/
def anyTermIn (terms : List String) (descLower : String) : Bool :=
  terms.any (fun t => strContains descLower t)

/-- The body of the `_extract_themes` loop for one description: five
sequential membership tests, each appending to its theme. -/
def themeStep (acc : List (String × List String)) (desc : String) :
    List (String × List String) :=
  let dl := pyLower desc
  let a1 := if anyTermIn authTerms dl then dictAppend acc "authentication" desc else acc
  let a2 := if anyTermIn apiTerms dl then dictAppend a1 "api" desc else a1
  let a3 := if anyTermIn uiTerms dl then dictAppend a2 "ui" desc else a2
  let a4 := if anyTermIn perfTerms dl then dictAppend a3 "performance" desc else a3
  if anyTermIn dataTerms dl then dictAppend a4 "data" desc else a4

/-- `CommitSummarizer._extract_themes`. -/
def extractThemes (descriptions : List String) : List (String × List String) :=
  descriptions.foldl themeStep []

/-- The theme table in declaration order: the name of each theme paired with
its keyword set, in the order the five `if` blocks appear in the source. -/
def themeTable : List (String × List String) :=
  [("authentication", authTerms), ("api", apiTerms), ("ui", uiTerms),
   ("performance", perfTerms), ("data", dataTerms)]

/-- The names of the themes a single description matches, in declaration
order. -/
def namesFor (desc : String) : List String :=
  let dl := pyLower desc
  (if anyTermIn authTerms dl then ["authentication"] else []) ++
  (if anyTermIn apiTerms dl then ["api"] else []) ++
  (if anyTermIn uiTerms dl then ["ui"] else []) ++
  (if anyTermIn perfTerms dl then ["performance"] else []) ++
  (if anyTermIn dataTerms dl then ["data"] else [])

/-! #### `_extract_key_terms` (lines 124-146) -/

/-- The built-in fallback stop-word list (nltk-absent branch). -/
def fallbackStop : List String :=
  ["the", "a", "an", "and", "or", "but", "in", "on", "at", "to", "for", "of",
   "with", "by", "is", "are", "was", "were"]

/-- Python `str.isdigit` (ASCII fragment): non-empty and all digits. -/
def pyIsDigit (s : String) : Bool := ¬ s.data.isEmpty && s.data.all Char.isDigit

/-- `_extract_key_terms`: clean and filter the words of the joined lower-cased
text, then the up-to-ten most frequent terms occurring more than once.
`Counter.most_common` sorts by count descending, stable in first-insertion
order. -/
def keyTermsOf (texts : List String) : List String :=
  if texts.isEmpty then []
  else
    let allText := pyLower (String.intercalate " " texts)
    let cleanWords := ((pySplit allText).map stripNonWord).filter
      (fun w => 2 < w.length && ¬ fallbackStop.contains w && ¬ pyIsDigit w)
    let top := (sortDesc (fun w => cleanWords.count w) (dedupFirst cleanWords)).take 10
    top.filter (fun w => 1 < cleanWords.count w)

/-! #### The per-type narrative builders (lines 216-461)

Each builds an insertion-ordered dict of (section title, sentence) from
substring tests, then concatenates a header, one bullet line per section and,
for some types, a fallback bullet and a closing paragraph. -/

/-- `any(term in text for term in kws)`. -/
def anyIn (kws : List String) (text : String) : Bool :=
  kws.any (fun t => strContains text t)

/-- `[d for d in descriptions if any(term in d.lower() for term in kws)]`. -/
def matchingDescs (kws : List String) (descriptions : List String) : List String :=
  descriptions.filter (fun d => anyIn kws (pyLower d))

/-- Render the collected themed sections as `"\n• **name**: text"` lines. -/
def bulletLines (sections : List (String × String)) : String :=
  String.join (sections.map (fun s => s!"\n• **{s.1}**: {s.2}"))

/-- `_summarize_features` (lines 216-274). -/
def summarizeFeatures (descriptions : List String) (keyTerms : List String) : String :=
  let count := descriptions.length
  if count = 0 then ""
  else
    let descText := pyLower (String.intercalate " " descriptions)
    let themes : List (String × String) :=
      (if anyIn authTerms descText then
        let n := (matchingDescs ["auth", "login", "signup", "user", "security", "token"] descriptions).length
        [("Authentication & Security", s!"Enhanced authentication system with {n} improvements including user management, security protocols, and access control mechanisms.")]
       else []) ++
      (if anyIn apiTerms descText then
        let n := (matchingDescs ["api", "endpoint", "request", "response", "server"] descriptions).length
        [("API & Backend Services", s!"Expanded API capabilities with {n} new endpoints and backend services, improving data handling and service integration.")]
       else []) ++
      (if anyIn uiTerms descText then
        let n := (matchingDescs ["ui", "interface", "component", "view", "frontend"] descriptions).length
        [("User Interface & Experience", s!"Introduced {n} new UI components and interface improvements, enhancing user experience and visual design.")]
       else []) ++
      (if anyIn perfTerms descText then
        let n := (matchingDescs ["cache", "performance", "optimization", "speed"] descriptions).length
        [("Performance & Optimization", s!"Implemented {n} performance enhancements including caching mechanisms, memory optimization, and speed improvements.")]
       else []) ++
      (if anyIn dataTerms descText then
        let n := (matchingDescs ["database", "db", "sql", "query", "data", "model"] descriptions).length
        [("Data Management", s!"Enhanced data handling with {n} database improvements, query optimizations, and data model enhancements.")]
       else []) ++
      (if anyIn ["support", "compatibility", "integration", "plugin", "extension", "platform"] descText then
        let n := (matchingDescs ["support", "compatibility", "integration", "plugin"] descriptions).length
        [("Platform Integration", s!"Added {n} new integrations and platform compatibility features, expanding ecosystem support.")]
       else []) ++
      (if anyIn ["test", "testing", "coverage", "quality", "validation", "check"] descText then
        let n := (matchingDescs ["test", "testing", "coverage", "quality"] descriptions).length
        [("Testing & Quality Assurance", s!"Strengthened testing framework with {n} new testing capabilities and quality assurance measures.")]
       else [])
    let featureText := if count = 1 then "feature" else "features"
    let header := s!"The project has seen significant feature development with {count} new {featureText} implemented across multiple areas:"
    let fallback :=
      if themes.isEmpty then
        let keyAreas := if keyTerms.isEmpty then ["core functionality", "system capabilities"]
                        else keyTerms.take 5
        let joined := String.intercalate ", " keyAreas
        s!"\n• **Core Enhancements**: Implemented improvements across {joined} with focus on expanding system capabilities and user functionality."
      else ""
    header ++ bulletLines themes ++ fallback

/-- `_summarize_fixes` (lines 276-335). -/
def summarizeFixes (descriptions : List String) (_keyTerms : List String) : String :=
  let count := descriptions.length
  if count = 0 then ""
  else
    let cats : List (String × String) :=
      (let l := matchingDescs ["crash", "error", "exception", "fail", "critical", "fatal", "hang"] descriptions
       if l.isEmpty then [] else
        let n := l.length
        [("Critical Stability", s!"Resolved {n} critical issues including application crashes, fatal errors, and system stability problems that could impact user experience.")]) ++
      (let l := matchingDescs ["memory", "leak", "performance", "slow", "timeout", "optimization"] descriptions
       if l.isEmpty then [] else
        let n := l.length
        [("Memory & Performance", s!"Fixed {n} performance-related issues including memory leaks, slow operations, and resource optimization problems.")]) ++
      (let l := matchingDescs ["ui", "display", "render", "visual", "layout", "css", "style", "appearance"] descriptions
       if l.isEmpty then [] else
        let n := l.length
        [("User Interface", s!"Corrected {n} user interface issues including display problems, rendering bugs, and visual inconsistencies.")]) ++
      (let l := matchingDescs ["security", "vulnerability", "exploit", "xss", "csrf", "injection", "auth"] descriptions
       if l.isEmpty then [] else
        let n := l.length
        [("Security", s!"Addressed {n} security vulnerabilities and authentication issues, strengthening system protection.")]) ++
      (let l := matchingDescs ["data", "database", "query", "logic", "calculation", "validation", "parsing"] descriptions
       if l.isEmpty then [] else
        let n := l.length
        [("Data & Logic", s!"Resolved {n} data handling and business logic issues, improving accuracy and reliability.")]) ++
      (let l := matchingDescs ["api", "endpoint", "integration", "connection", "network", "request", "response"] descriptions
       if l.isEmpty then [] else
        let n := l.length
        [("API & Integration", s!"Fixed {n} API and integration problems, ensuring reliable external service communication.")]) ++
      (let l := matchingDescs ["compatibility", "platform", "browser", "version", "support", "deprecated"] descriptions
       if l.isEmpty then [] else
        let n := l.length
        [("Compatibility", s!"Improved {n} compatibility issues across different platforms, browsers, and system versions.")])
    let issueText := if count = 1 then "issue" else "issues"
    let header := s!"Comprehensive bug fixing effort with {count} {issueText} resolved across multiple categories:"
    let fallback :=
      if cats.isEmpty then
        "\n• **General Improvements**: Fixed various issues improving overall system reliability, user experience, and code quality."
      else ""
    header ++ bulletLines cats ++ fallback ++
      "\n\nThese fixes collectively enhance system stability, improve user experience, and ensure robust operation across different use cases and environments."

/-- `_summarize_docs` (lines 337-386). -/
def summarizeDocs (descriptions : List String) (_keyTerms : List String) : String :=
  let count := descriptions.length
  if count = 0 then ""
  else
    let cats : List (String × String) :=
      (let l := matchingDescs ["readme", "guide", "tutorial", "getting started", "quickstart", "example"] descriptions
       if l.isEmpty then [] else
        let n := l.length
        [("User Documentation", s!"Enhanced user-facing documentation with {n} updates including guides, tutorials, examples, and getting started materials.")]) ++
      (let l := matchingDescs ["api", "reference", "docstring", "endpoint", "parameter", "method"] descriptions
       if l.isEmpty then [] else
        let n := l.length
        [("API Reference", s!"Improved API documentation with {n} updates covering endpoints, parameters, methods, and technical references.")]) ++
      (let l := matchingDescs ["comment", "docstring", "inline", "code", "function", "class"] descriptions
       if l.isEmpty then [] else
        let n := l.length
        [("Code Documentation", s!"Strengthened code documentation with {n} improvements to inline comments, docstrings, and code explanations.")]) ++
      (let l := matchingDescs ["install", "setup", "configuration", "deployment", "build"] descriptions
       if l.isEmpty then [] else
        let n := l.length
        [("Installation & Setup", s!"Updated installation and setup documentation with {n} improvements covering configuration, deployment, and build processes.")]) ++
      (let l := matchingDescs ["troubleshoot", "faq", "problem", "issue", "help", "support"] descriptions
       if l.isEmpty then [] else
        let n := l.length
        [("Support Documentation", s!"Enhanced support materials with {n} additions to troubleshooting guides, FAQs, and help resources.")])
    let updateText := if count = 1 then "update" else "updates"
    let header := s!"Comprehensive documentation improvements with {count} {updateText} enhancing project accessibility and developer experience:"
    let fallback :=
      if cats.isEmpty then
        "\n• **General Documentation**: Improved project documentation covering various aspects of the codebase, usage instructions, and technical details."
      else ""
    header ++ bulletLines cats ++ fallback ++
      "\n\nThese documentation enhancements make the project more accessible to new users, provide better guidance for developers, and improve overall project maintainability."

/-- `_summarize_refactor` (lines 388-437). -/
def summarizeRefactor (descriptions : List String) (_keyTerms : List String) : String :=
  let count := descriptions.length
  if count = 0 then ""
  else
    let cats : List (String × String) :=
      (let l := matchingDescs ["structure", "architecture", "organize", "modular", "component", "class"] descriptions
       if l.isEmpty then [] else
        let n := l.length
        [("Code Architecture", s!"Restructured codebase architecture with {n} improvements focusing on modularity, component organization, and structural clarity.")]) ++
      (let l := matchingDescs ["performance", "optimize", "efficient", "speed", "memory", "cache"] descriptions
       if l.isEmpty then [] else
        let n := l.length
        [("Performance Optimization", s!"Optimized code performance through {n} refactoring efforts targeting efficiency, speed improvements, and resource utilization.")]) ++
      (let l := matchingDescs ["clean", "simplify", "readable", "maintainable", "quality", "standard"] descriptions
       if l.isEmpty then [] else
        let n := l.length
        [("Code Quality", s!"Enhanced code quality with {n} refactoring improvements focusing on readability, maintainability, and coding standards.")]) ++
      (let l := matchingDescs ["api", "interface", "method", "function", "signature", "endpoint"] descriptions
       if l.isEmpty then [] else
        let n := l.length
        [("API Design", s!"Refined API design through {n} interface improvements, method restructuring, and endpoint optimization.")]) ++
      (let l := matchingDescs ["dependency", "import", "package", "module", "library", "external"] descriptions
       if l.isEmpty then [] else
        let n := l.length
        [("Dependency Management", s!"Improved dependency management with {n} refactoring changes to imports, packages, and external library usage.")])
    let improvementText := if count = 1 then "improvement" else "improvements"
    let header := s!"Extensive codebase refactoring with {count} {improvementText} enhancing code quality and maintainability:"
    let fallback :=
      if cats.isEmpty then
        "\n• **General Refactoring**: Improved code organization, maintainability, and architectural design through systematic refactoring efforts."
      else ""
    header ++ bulletLines cats ++ fallback ++
      "\n\nThese refactoring efforts result in cleaner, more maintainable code that is easier to understand, modify, and extend while improving overall system architecture."

/-- `_summarize_tests` (lines 439-445). -/
def summarizeTests (descriptions : List String) (_keyTerms : List String) : String :=
  let count := descriptions.length
  if count = 0 then ""
  else s!"Enhanced testing suite with {count} additions including new test cases, improved coverage, and testing infrastructure updates."

/-- `_summarize_performance` (lines 447-453). -/
def summarizePerformance (descriptions : List String) (_keyTerms : List String) : String :=
  let count := descriptions.length
  if count = 0 then ""
  else s!"Optimized performance with {count} improvements targeting speed, efficiency, and resource utilization."

/-- `_summarize_general` (lines 455-461). -/
def summarizeGeneral (commitType : String) (descriptions : List String)
    (_keyTerms : List String) : String :=
  let count := descriptions.length
  if count = 0 then ""
  else s!"Made {count} {commitType} changes improving various aspects of the project."

/-- `_create_detailed_summary` (lines 98-122): empty-description guard, key
term extraction, then dispatch on the commit type. -/
def createDetailedSummary (commitType : String) (descriptions allText : List String) :
    String :=
  if descriptions.isEmpty then ""
  else
    let keyTerms := keyTermsOf allText
    if commitType = "feat" then summarizeFeatures descriptions keyTerms
    else if commitType = "fix" then summarizeFixes descriptions keyTerms
    else if commitType = "docs" then summarizeDocs descriptions keyTerms
    else if commitType = "refactor" then summarizeRefactor descriptions keyTerms
    else if commitType = "test" then summarizeTests descriptions keyTerms
    else if commitType = "perf" then summarizePerformance descriptions keyTerms
    else summarizeGeneral commitType descriptions keyTerms

/-- The `descriptions` list gathered for one group: each truthy description,
stripped. -/
def descriptionsOf (items : List CommitInfo) : List String :=
  items.flatMap fun c =>
    let d := (CommitParser.parse c.message).2.2.1
    if ¬ d.isEmpty then [pyStrip d] else []

/-- The `all_text` list gathered for one group: each truthy description plus,
for each truthy body whose first line (nltk-absent sentence split) strips to
more than 10 characters, that stripped first line. -/
def allTextOf (items : List CommitInfo) : List String :=
  items.flatMap fun c =>
    let p := CommitParser.parse c.message
    (if ¬ p.2.2.1.isEmpty then [pyStrip p.2.2.1] else []) ++
    (match p.2.2.2 with
     | some b =>
       if ¬ b.isEmpty then
         let s0 := pyStrip (String.mk (b.data.takeWhile (fun ch => ch ≠ '\n')))
         if 10 < s0.length then [s0] else []
       else []
     | none => [])

/-- `CommitSummarizer.summarize` (narrative mode, lines 54-96): group by
parsed type, build a narrative per group, and keep only non-empty
narratives. -/
def summarize (commits : List CommitInfo) : List (String × String) :=
  (BulletSummarizer.groupByType commits).flatMap fun g =>
    if g.2.isEmpty then []
    else
      let s := createDetailedSummary g.1 (descriptionsOf g.2) (allTextOf g.2)
      if ¬ s.isEmpty then [(g.1, s)] else []

end NarrativeSummarizer

/-! ### Derived definitions used in claim statements -/

/-- Total length of all groups of an insertion-ordered dictionary. -/
def sumLens {α : Type} (m : List (String × List α)) : Nat :=
  (m.map (fun g => g.2.length)).sum

/-- Lookup in an insertion-ordered dictionary. -/
def dictGet {α : Type} (m : List (String × List α)) (k : String) : Option (List α) :=
  match m with
  | [] => none
  | (k', v) :: rest => if k' = k then some v else dictGet rest k

/-- The first line a commit message parse works on:
`lines[0] if lines else ""`. -/
def firstLine (message : String) : String := (pySplitLines message).headD ""

/-- The body component computed by `CommitParser.parse`:
`"\n".join(lines[1:]).strip() if len(lines) > 1 else None`. -/
def bodyOf (message : String) : Option String :=
  if (pySplitLines message).length > 1 then
    some (pyStrip (CommitParser.joinNL ((pySplitLines message).drop 1)))
  else none

/-- The `seen` set accumulated by `dedupFirstAux` after processing a list. -/
def seenAfter (seen : List String) : List String → List String
  | [] => seen
  | x :: xs => if seen.contains x then seenAfter seen xs else seenAfter (x :: seen) xs

/-- Append one value under several keys in sequence. -/
def dictAppendAll {α : Type} (m : List (String × List α)) (ks : List String) (v : α) :
    List (String × List α) :=
  ks.foldl (fun m k => dictAppend m k v) m

/-! ### Generic lemmas -/

lemma contains_iff_mem (l : List String) (a : String) : l.contains a = true ↔ a ∈ l := by
  simp [List.contains, List.elem_iff]

lemma sumLens_dictAppend {α : Type} (m : List (String × List α)) (k : String) (v : α) :
    sumLens (dictAppend m k v) = sumLens m + 1 := by
  induction m with
  | nil => simp [dictAppend, sumLens]
  | cons p rest ih =>
    obtain ⟨k', vs⟩ := p
    by_cases h : k' = k <;> simp [dictAppend, h, sumLens] at * <;> omega

lemma dictGet_dictAppend_self {α : Type} (m : List (String × List α)) (k : String) (v : α) :
    dictGet (dictAppend m k v) k =
      some ((dictGet m k).getD [] ++ [v]) := by
  induction m with
  | nil => simp [dictAppend, dictGet]
  | cons p rest ih =>
    obtain ⟨k', vs⟩ := p
    by_cases h : k' = k <;> simp [dictAppend, dictGet, h, ih]

lemma dictGet_dictAppend_ne {α : Type} (m : List (String × List α)) {k k' : String}
    (h : k' ≠ k) (v : α) : dictGet (dictAppend m k v) k' = dictGet m k' := by
  induction m with
  | nil =>
    have h' : k ≠ k' := fun hh => h hh.symm
    simp [dictAppend, dictGet, h']
  | cons p rest ih =>
    obtain ⟨k'', vs⟩ := p
    by_cases h2 : k'' = k
    · subst h2
      have h4 : ¬ k'' = k' := fun hh => h hh.symm
      simp [dictAppend, dictGet, h4]
    · by_cases h3 : k'' = k'
      · subst h3
        simp [dictAppend, dictGet, h2]
      · simp [dictAppend, dictGet, h2, h3, ih]

lemma dictKeys_cons {α : Type} (p : String × List α) (rest : List (String × List α)) :
    dictKeys (p :: rest) = p.1 :: dictKeys rest := rfl

lemma dictKeys_dictAppend {α : Type} (m : List (String × List α)) (k : String) (v : α) :
    dictKeys (dictAppend m k v) =
      if k ∈ dictKeys m then dictKeys m else dictKeys m ++ [k] := by
  induction m with
  | nil => simp [dictAppend, dictKeys]
  | cons p rest ih =>
    obtain ⟨k', vs⟩ := p
    by_cases h : k' = k
    · subst h
      simp [dictAppend, dictKeys_cons]
    · have h' : ¬ k = k' := fun hh => h hh.symm
      by_cases h2 : k ∈ dictKeys rest <;>
        simp [dictAppend, h, h', h2, dictKeys_cons, ih]

/-! ### Sorting lemmas -/

lemma sortDesc_perm {α : Type} (key : α → Nat) (l : List α) : List.Perm (sortDesc key l) l :=
  List.perm_insertionSort (descRel key) l

lemma sortDesc_pairwise {α : Type} (key : α → Nat) (l : List α) :
    (sortDesc key l).Pairwise (descRel key) := by
  haveI : IsTotal α (descRel key) := ⟨fun a b => Nat.le_total (key b) (key a)⟩
  haveI : IsTrans α (descRel key) := ⟨fun a b c hab hbc => Nat.le_trans hbc hab⟩
  exact List.sorted_insertionSort (descRel key) l

lemma sortDesc_eq_self {α : Type} (key : α → Nat) {l : List α}
    (h : l.Pairwise (descRel key)) : sortDesc key l = l :=
  List.Sorted.insertionSort_eq h

/-- Stability of `orderedInsert` seen through a fixed key value: the new
element goes in front of exactly the elements of its own key class. -/
lemma orderedInsert_filter_key {α : Type} (key : α → Nat) (k : Nat) (x : α) (l : List α) :
    (List.orderedInsert (descRel key) x l).filter (fun a => key a == k) =
      if key x = k then x :: l.filter (fun a => key a == k)
      else l.filter (fun a => key a == k) := by
  induction l with
  | nil =>
    by_cases h : key x = k <;> simp [h]
  | cons y ys ih =>
    by_cases h : descRel key x y
    · by_cases h2 : key x = k <;> simp [h, h2, List.filter_cons]
    · have hxy : key x < key y := by
        simp only [descRel, not_le] at h
        exact h
      by_cases h2 : key x = k
      · have hy : ¬ (key y = k) := by omega
        simp [h, h2, hy, ih, List.filter_cons]
      · simp only [List.orderedInsert, if_neg h, List.filter_cons, ih, if_neg h2]

/-- Stability of the descending sort: each key class keeps its input order. -/
lemma sortDesc_filter_key {α : Type} (key : α → Nat) (k : Nat) (l : List α) :
    (sortDesc key l).filter (fun a => key a == k) = l.filter (fun a => key a == k) := by
  induction l with
  | nil => rfl
  | cons x xs ih =>
    show (List.orderedInsert (descRel key) x (sortDesc key xs)).filter _ = _
    rw [orderedInsert_filter_key]
    by_cases h2 : key x = k <;> simp [h2, ih, List.filter_cons]

/-! ### Case-insensitive de-duplication lemmas -/

lemma dedupCIAux_sublist (seen : List String) (l : List String) :
    List.Sublist (BulletSummarizer.dedupCIAux seen l) l := by
  induction l generalizing seen with
  | nil => simp [BulletSummarizer.dedupCIAux]
  | cons c cs ih =>
    by_cases h : seen.contains (pyLower c)
    · simp only [BulletSummarizer.dedupCIAux, if_pos h]
      exact (ih seen).trans (List.sublist_cons_self c cs)
    · simp only [BulletSummarizer.dedupCIAux, if_neg h]
      exact (ih (pyLower c :: seen)).cons₂ c

lemma mem_dedupCIAux_not_seen {seen l : List String} {c : String}
    (h : c ∈ BulletSummarizer.dedupCIAux seen l) : pyLower c ∉ seen := by
  induction l generalizing seen with
  | nil => simp [BulletSummarizer.dedupCIAux] at h
  | cons a as ih =>
    by_cases ha : seen.contains (pyLower a)
    · rw [BulletSummarizer.dedupCIAux, if_pos ha] at h
      exact ih h
    · rw [BulletSummarizer.dedupCIAux, if_neg ha] at h
      rcases List.mem_cons.mp h with rfl | h2
      · exact fun hc => ha ((contains_iff_mem seen (pyLower c)).mpr hc)
      · intro hc
        exact ih h2 (List.mem_cons_of_mem _ hc)

lemma dedupCIAux_pairwise (seen : List String) (l : List String) :
    (BulletSummarizer.dedupCIAux seen l).Pairwise (fun a b => pyLower a ≠ pyLower b) := by
  induction l generalizing seen with
  | nil => simp [BulletSummarizer.dedupCIAux]
  | cons a as ih =>
    by_cases ha : seen.contains (pyLower a)
    · rw [BulletSummarizer.dedupCIAux, if_pos ha]
      exact ih seen
    · rw [BulletSummarizer.dedupCIAux, if_neg ha]
      refine List.Pairwise.cons ?_ (ih (pyLower a :: seen))
      intro b hb hab
      exact mem_dedupCIAux_not_seen hb (by rw [← hab]; exact List.mem_cons_self _ _)

lemma exists_mem_dedupCIAux (seen : List String) {l : List String} {c : String}
    (h : c ∈ l) :
    pyLower c ∈ seen ∨
      ∃ c', c' ∈ BulletSummarizer.dedupCIAux seen l ∧ pyLower c' = pyLower c := by
  induction l generalizing seen with
  | nil => simp at h
  | cons a as ih =>
    by_cases ha : seen.contains (pyLower a)
    · rw [BulletSummarizer.dedupCIAux, if_pos ha]
      rcases List.mem_cons.mp h with rfl | h2
      · exact Or.inl ((contains_iff_mem _ _).mp ha)
      · exact ih seen h2
    · rw [BulletSummarizer.dedupCIAux, if_neg ha]
      rcases List.mem_cons.mp h with rfl | h2
      · exact Or.inr ⟨c, List.mem_cons_self _ _, rfl⟩
      · rcases ih (pyLower a :: seen) h2 with hs | ⟨c', hc', he⟩
        · rcases List.mem_cons.mp hs with he | hs2
          · exact Or.inr ⟨a, List.mem_cons_self _ _, he.symm⟩
          · exact Or.inl hs2
        · exact Or.inr ⟨c', List.mem_cons_of_mem _ hc', he⟩

lemma dedupCIAux_eq_self {seen l : List String}
    (hp : l.Pairwise (fun a b => pyLower a ≠ pyLower b))
    (hs : ∀ c ∈ l, pyLower c ∉ seen) : BulletSummarizer.dedupCIAux seen l = l := by
  induction l generalizing seen with
  | nil => rfl
  | cons a as ih =>
    have ha : ¬ seen.contains (pyLower a) := by
      intro hc
      exact hs a (List.mem_cons_self _ _) ((contains_iff_mem _ _).mp hc)
    rw [BulletSummarizer.dedupCIAux, if_neg ha]
    have := List.pairwise_cons.mp hp
    refine congrArg (a :: ·) (ih this.2 ?_)
    intro c hc
    intro hmem
    rcases List.mem_cons.mp hmem with he | hseen
    · exact this.1 c hc he.symm
    · exact hs c (List.mem_cons_of_mem _ hc) hseen

/-! ### Claim theorems: the easy concrete ones -/

/-- **C4.** The fallback category-keyword scan order differs between the two
classifier implementations: on the message `"add fix"` the
`CommitParser.parse` fallback scans its priority tuple and classifies as
`fix` (section name `fixes`), while `categorize_commits` of summarizer.py
tries its feature keywords first and files the same message under
`features`. -/
theorem classifier_implementations_disagree :
    CommitParser.parseCat "add fix" = "fix" ∧
    TopSummarizer.categorize_commits ["add fix"] = [("features", ["add fix"])] ∧
    TopSummarizer.toSectionName (CommitParser.parseCat "add fix") ≠
      TopSummarizer.categorizeOne "add fix" := by
  refine ⟨by decide, by decide, by decide⟩

/-- **C9.** Empty inputs give empty outputs, not errors: ranking the empty
candidate list gives `[]`, clustering the empty description list gives the
empty mapping, and bullet-mode summarization of an empty commit list gives
the empty category mapping (for every `topN`). -/
theorem empty_inputs_yield_empty :
    BulletSummarizer.rankCandidates [] = [] ∧
    NarrativeSummarizer.extractThemes [] = [] ∧
    ∀ topN : Nat, BulletSummarizer.summarize [] topN = [] := by
  exact ⟨rfl, rfl, fun _ => rfl⟩

/-- **C10.** On a commit whose message is the non-empty, whitespace-only
string `" "` (parsed as `chore` with empty description), bullet-mode
summarize returns a mapping containing the key `chore` bound to the empty
list, while narrative-mode summarize returns a mapping with no entry at all:
the two modes disagree on whether an empty category appears. -/
theorem bullet_vs_narrative_empty_category :
    CommitParser.parse " " = ("chore", none, "", none) ∧
    (" " : String) ≠ "" ∧
    BulletSummarizer.summarize [⟨"c1", none, 0, " "⟩] 5 = [("chore", [])] ∧
    NarrativeSummarizer.summarize [⟨"c1", none, 0, " "⟩] = [] := by
  refine ⟨by decide, by decide, by decide, by decide⟩

/-! ### C5 and C1: the extractive ranker -/

/-- `_rank_candidates` without the redundant empty-list early return: on `[]`
both sides are `[]`. -/
lemma rankCandidates_eq (cands : List String) :
    BulletSummarizer.rankCandidates cands =
      BulletSummarizer.dedupCI (sortDesc (BulletSummarizer.score cands) cands) := by
  cases cands <;> rfl

/-- **C5.** The ranker sorts by aggregate frequency score descending (first
conjunct), keeps tied candidates in input order and loses only case-repeats
(each score class of the output is an order-preserving subsequence of the
input score class), represents every input candidate up to case (third
conjunct), and emits no two case-insensitively equal entries (fourth
conjunct); on the spec scenario the frequency table is add=3, login=2,
signup=1 and the output is `["add login", "add signup"]`. -/
theorem rank_sorted_stable_dedup :
    (∀ cands : List String,
      ((BulletSummarizer.rankCandidates cands).Pairwise
        (fun a b => BulletSummarizer.score cands b ≤ BulletSummarizer.score cands a)) ∧
      (∀ k : Nat,
        List.Sublist
          ((BulletSummarizer.rankCandidates cands).filter
            (fun c => BulletSummarizer.score cands c == k))
          (cands.filter (fun c => BulletSummarizer.score cands c == k))) ∧
      (∀ c ∈ cands, ∃ c', c' ∈ BulletSummarizer.rankCandidates cands ∧
        pyLower c' = pyLower c) ∧
      ((BulletSummarizer.rankCandidates cands).Pairwise
        (fun a b => pyLower a ≠ pyLower b))) ∧
    BulletSummarizer.rankCandidates ["add login", "add signup", "ADD LOGIN"] =
      ["add login", "add signup"] ∧
    BulletSummarizer.wordFreq ["add login", "add signup", "ADD LOGIN"] "add" = 3 ∧
    BulletSummarizer.wordFreq ["add login", "add signup", "ADD LOGIN"] "login" = 2 ∧
    BulletSummarizer.wordFreq ["add login", "add signup", "ADD LOGIN"] "signup" = 1 := by
  refine ⟨fun cands => ⟨?_, ?_, ?_, ?_⟩, by decide, by decide, by decide, by decide⟩
  · rw [rankCandidates_eq]
    exact List.Pairwise.sublist (dedupCIAux_sublist [] _)
      (sortDesc_pairwise (BulletSummarizer.score cands) cands)
  · intro k
    rw [rankCandidates_eq]
    have h1 := (dedupCIAux_sublist [] (sortDesc (BulletSummarizer.score cands) cands)).filter
      (fun c => BulletSummarizer.score cands c == k)
    rwa [sortDesc_filter_key] at h1
  · intro c hc
    have hc2 : c ∈ sortDesc (BulletSummarizer.score cands) cands :=
      ((sortDesc_perm (BulletSummarizer.score cands) cands).mem_iff).mpr hc
    rcases exists_mem_dedupCIAux [] hc2 with hm | ⟨c', h1, h2⟩
    · simp at hm
    · exact ⟨c', by rw [rankCandidates_eq]; exact h1, h2⟩
  · rw [rankCandidates_eq]
    exact dedupCIAux_pairwise [] _

/-- Witness for C5: the case-class representation conjunct applied at a
concrete candidate list and member. -/
theorem rank_sorted_stable_dedup_witness :
    ∃ c', c' ∈ BulletSummarizer.rankCandidates ["add login", "add signup", "ADD LOGIN"] ∧
      pyLower c' = pyLower "ADD LOGIN" :=
  (rank_sorted_stable_dedup.1 ["add login", "add signup", "ADD LOGIN"]).2.2.1
    "ADD LOGIN" (by decide)

/-- Frequency tables depend only on the multiset of candidates. -/
lemma wordFreq_perm {l₁ l₂ : List String} (h : List.Perm l₁ l₂) :
    BulletSummarizer.wordFreq l₁ = BulletSummarizer.wordFreq l₂ := by
  funext t
  exact (h.flatMap_right BulletSummarizer.filteredTokens).count_eq t

/-- Scores depend only on the multiset of candidates. -/
lemma score_perm {l₁ l₂ : List String} (h : List.Perm l₁ l₂) :
    BulletSummarizer.score l₁ = BulletSummarizer.score l₂ := by
  funext c
  unfold BulletSummarizer.score
  rw [wordFreq_perm h]

/-- **C1 (amended).** On a candidate list without case-insensitive
duplicates, ranking is idempotent: de-duplication then removes nothing, the
re-built frequency table of the second pass coincides with the first (the
corpus is a permutation), and re-sorting a sorted list is the identity. -/
theorem rank_idempotent_on_ci_dupfree (l : List String)
    (h : l.Pairwise (fun a b => pyLower a ≠ pyLower b)) :
    BulletSummarizer.rankCandidates (BulletSummarizer.rankCandidates l) =
      BulletSummarizer.rankCandidates l := by
  have hperm : List.Perm (sortDesc (BulletSummarizer.score l) l) l := sortDesc_perm _ l
  have hpair : (sortDesc (BulletSummarizer.score l) l).Pairwise
      (fun a b => pyLower a ≠ pyLower b) :=
    (hperm.pairwise_iff (fun hab he => hab he.symm)).mpr h
  have h1 : BulletSummarizer.rankCandidates l = sortDesc (BulletSummarizer.score l) l := by
    rw [rankCandidates_eq]
    exact dedupCIAux_eq_self hpair (fun c _ => by simp)
  have hperm2 : List.Perm (BulletSummarizer.rankCandidates l) l := by
    rw [h1]; exact hperm
  have hscore : BulletSummarizer.score (BulletSummarizer.rankCandidates l) =
      BulletSummarizer.score l := score_perm hperm2
  have hsorted : (BulletSummarizer.rankCandidates l).Pairwise
      (descRel (BulletSummarizer.score l)) := by
    rw [h1]; exact sortDesc_pairwise _ l
  have hpair2 : (BulletSummarizer.rankCandidates l).Pairwise
      (fun a b => pyLower a ≠ pyLower b) := by
    rw [h1]; exact hpair
  rw [rankCandidates_eq (BulletSummarizer.rankCandidates l), hscore,
    sortDesc_eq_self _ hsorted]
  exact dedupCIAux_eq_self hpair2 (fun c _ => by simp)

/-- **C1, counterexample.** Ranking is not idempotent in general: on
`["a a", "A A", "c c", "c"]` the first pass scores with frequencies built
over the duplicated corpus (a=4, c=3), yielding `["a a", "c c", "c"]` after
de-duplication; the second pass rebuilds frequencies over the de-duplicated
corpus (a=2, c=3) and re-orders to `["c c", "a a", "c"]`. -/
theorem rank_not_idempotent_cex :
    BulletSummarizer.rankCandidates
        (BulletSummarizer.rankCandidates ["a a", "A A", "c c", "c"]) ≠
      BulletSummarizer.rankCandidates ["a a", "A A", "c c", "c"] := by
  decide

/-- Witness for the amended C1 at a concrete duplicate-free list. -/
theorem rank_idempotent_witness :
    (["add login", "add signup"] : List String).Pairwise
        (fun a b => pyLower a ≠ pyLower b) ∧
    BulletSummarizer.rankCandidates
        (BulletSummarizer.rankCandidates ["add login", "add signup"]) =
      BulletSummarizer.rankCandidates ["add login", "add signup"] :=
  ⟨by decide, rank_idempotent_on_ci_dupfree ["add login", "add signup"] (by decide)⟩

/-! ### C2, C7, C8: the commit classifier -/

/-- When the conventional pattern fails, `parse` takes the fallback path. -/
lemma parse_eq_fallback {m : String}
    (hn : CommitParser.matchConventional (firstLine m) = none) :
    CommitParser.parse m =
      (CommitParser.fallbackGuess (pyLower (firstLine m)), none,
        pyStrip (firstLine m), bodyOf m) := by
  simp only [CommitParser.parse]
  simp only [firstLine] at hn
  rw [hn]
  simp [bodyOf, firstLine]

/-- When the conventional pattern matches, `parse` returns its groups. -/
lemma parse_eq_conventional {m : String} {t : String} {sc : Option String} {g : String}
    (hm : CommitParser.matchConventional (firstLine m) = some (t, sc, g)) :
    CommitParser.parse m = (t, sc, pyStrip g, bodyOf m) := by
  simp only [CommitParser.parse]
  simp only [firstLine] at hm
  rw [hm]
  simp [bodyOf, firstLine]

/-- **C2 (amended).** The short description is non-empty whenever the first
line does not match the conventional pattern and does not strip to the empty
string; when the pattern matches, the short description is the trimmed
remainder, which can be empty (e.g. for `"feat: "`). -/
theorem desc_nonempty_characterization (m : String) :
    (CommitParser.matchConventional (firstLine m) = none →
      pyStrip (firstLine m) ≠ "" → CommitParser.parseDesc m ≠ "") ∧
    (∀ t sc g, CommitParser.matchConventional (firstLine m) = some (t, sc, g) →
      CommitParser.parseDesc m = pyStrip g) := by
  constructor
  · intro hn hne
    unfold CommitParser.parseDesc
    rw [parse_eq_fallback hn]
    exact hne
  · intro t sc g hm
    unfold CommitParser.parseDesc
    rw [parse_eq_conventional hm]

/-- **C2, counterexample.** The message `" "` is a non-empty string, but its
parsed short description is empty: the whitespace-only first line does not
match the conventional pattern and strips to `""`. -/
theorem desc_empty_on_blank_message :
    (" " : String) ≠ "" ∧ CommitParser.parseDesc " " = "" :=
  ⟨by decide, by decide⟩

/-- Witness for the amended C2 on a concrete non-conventional message. -/
theorem desc_nonempty_witness :
    CommitParser.parseDesc "Fixed a crash on startup" ≠ "" :=
  (desc_nonempty_characterization "Fixed a crash on startup").1 (by decide) (by decide)

/-- **C7.** On a conventional match, `parse` returns the lower-cased matched
type, the parenthesized scope (or none), the trimmed remainder and the
trimmed joined remaining lines (or none); the spec scenario evaluates as
stated (the spec names the tag `feat` `feature`). -/
theorem parse_conventional_match :
    (∀ (m t : String) (sc : Option String) (g : String),
      CommitParser.matchConventional (firstLine m) = some (t, sc, g) →
      CommitParser.parse m = (t, sc, pyStrip g, bodyOf m)) ∧
    CommitParser.parse "feat(auth): add OAuth login\n\nSupports Google and GitHub providers." =
      ("feat", some "auth", "add OAuth login",
        some "Supports Google and GitHub providers.") :=
  ⟨fun _ _ _ _ hm => parse_eq_conventional hm, by decide⟩

/-- Witness for C7 at the spec scenario message. -/
theorem parse_conventional_match_witness :
    CommitParser.parse "feat(auth): add OAuth login\n\nSupports Google and GitHub providers." =
      ("feat", some "auth", pyStrip "add OAuth login",
        bodyOf "feat(auth): add OAuth login\n\nSupports Google and GitHub providers.") :=
  parse_conventional_match.1 _ "feat" (some "auth") "add OAuth login" (by decide)

/-- **C8.** When the conventional pattern fails, `parse` falls back to the
first keyword of the priority tuple (`feat`, `fix`, `docs`, `refactor`,
`perf`, `test`, `style` — the spec names these `feature`, ..,
`performance`, ..) hit as a prefix, a `"<type>:"` substring, or a
whitespace-split word of the lower-cased first line, defaulting to `chore`;
scope is none and the description is the trimmed first line; the empty
message yields `chore` with empty description. -/
theorem parse_fallback_scan :
    (∀ m : String, CommitParser.matchConventional (firstLine m) = none →
      CommitParser.parse m =
        (CommitParser.fallbackGuess (pyLower (firstLine m)), none,
          pyStrip (firstLine m), bodyOf m)) ∧
    CommitParser.parse "" = ("chore", none, "", none) ∧
    CommitParser.parse "Fixed a crash on startup" =
      ("fix", none, "Fixed a crash on startup", none) :=
  ⟨fun _ hn => parse_eq_fallback hn, by decide, by decide⟩

/-- Witness for C8 at a concrete non-conventional message. -/
theorem parse_fallback_scan_witness :
    CommitParser.parse "Update readme" =
      (CommitParser.fallbackGuess (pyLower (firstLine "Update readme")), none,
        pyStrip (firstLine "Update readme"), bodyOf "Update readme") :=
  parse_fallback_scan.1 "Update readme" (by decide)

/-! ### C6: grouping completeness -/

lemma sumLens_groupByType_fold (L : List CommitInfo)
    (acc : List (String × List CommitInfo)) :
    sumLens (L.foldl (fun acc c => dictAppend acc (CommitParser.parseCat c.message) c) acc) =
      sumLens acc + L.length := by
  induction L generalizing acc with
  | nil => simp
  | cons c cs ih =>
    simp only [List.foldl_cons, ih, sumLens_dictAppend, List.length_cons]
    omega

/-- **C6.** Grouping by parsed category places every commit in exactly one
group: group lengths sum to the input length. -/
theorem grouping_complete (L : List CommitInfo) :
    sumLens (CommitCategorizer.categorize L) = L.length := by
  have h := sumLens_groupByType_fold L []
  simpa [CommitCategorizer.categorize, BulletSummarizer.groupByType, sumLens] using h

/-! ### C3: the thematic clusterer -/

lemma mem_dedupFirstAux (seen l : List String) (a : String) :
    a ∈ dedupFirstAux seen l ↔ a ∈ l ∧ ¬ a ∈ seen := by
  induction l generalizing seen with
  | nil => simp [dedupFirstAux]
  | cons x xs ih =>
    by_cases h : seen.contains x
    · have hx : x ∈ seen := (contains_iff_mem _ _).mp h
      rw [dedupFirstAux, if_pos h, ih]
      simp only [List.mem_cons]
      constructor
      · exact fun hh => ⟨Or.inr hh.1, hh.2⟩
      · rintro ⟨rfl | h1, h2⟩
        · exact absurd hx h2
        · exact ⟨h1, h2⟩
    · have hx : ¬ x ∈ seen := fun hm => h ((contains_iff_mem _ _).mpr hm)
      rw [dedupFirstAux, if_neg h]
      simp only [List.mem_cons, ih]
      constructor
      · rintro (rfl | ⟨h1, h2⟩)
        · exact ⟨Or.inl rfl, hx⟩
        · exact ⟨Or.inr h1, fun hm => h2 (Or.inr hm)⟩
      · rintro ⟨rfl | h1, h2⟩
        · exact Or.inl rfl
        · by_cases hax : a = x
          · exact Or.inl hax
          · exact Or.inr ⟨h1, fun hm => hm.elim hax h2⟩

lemma dedupFirstAux_congr (seen1 seen2 : List String)
    (h : ∀ x, x ∈ seen1 ↔ x ∈ seen2) (l : List String) :
    dedupFirstAux seen1 l = dedupFirstAux seen2 l := by
  induction l generalizing seen1 seen2 with
  | nil => rfl
  | cons x xs ih =>
    have hc : seen1.contains x = seen2.contains x := by
      by_cases h1 : x ∈ seen1
      · rw [(contains_iff_mem _ _).mpr h1, (contains_iff_mem _ _).mpr ((h x).mp h1)]
      · have h2 : ¬ x ∈ seen2 := fun hm => h1 ((h x).mpr hm)
        have e1 : seen1.contains x = false := by
          rw [← Bool.not_eq_true]
          exact fun hb => h1 ((contains_iff_mem _ _).mp hb)
        have e2 : seen2.contains x = false := by
          rw [← Bool.not_eq_true]
          exact fun hb => h2 ((contains_iff_mem _ _).mp hb)
        rw [e1, e2]
    simp only [dedupFirstAux]
    rw [hc]
    by_cases h2 : seen2.contains x
    · simp only [if_pos h2]
      exact ih seen1 seen2 h
    · simp only [if_neg h2]
      have hstep := ih (x :: seen1) (x :: seen2)
        (fun y => by simp only [List.mem_cons, h y])
      rw [hstep]

lemma dedupFirstAux_append (seen xs ys : List String) :
    dedupFirstAux seen (xs ++ ys) =
      dedupFirstAux seen xs ++ dedupFirstAux (seenAfter seen xs) ys := by
  induction xs generalizing seen with
  | nil => simp [dedupFirstAux, seenAfter]
  | cons x xs ih =>
    by_cases h : x ∈ seen
    · have hc : seen.contains x = true := (contains_iff_mem _ _).mpr h
      simp [dedupFirstAux, seenAfter, hc, h, ih]
    · have hc : seen.contains x = false := by
        rw [← Bool.not_eq_true]
        exact fun hb => h ((contains_iff_mem _ _).mp hb)
      simp [dedupFirstAux, seenAfter, hc, h, ih]

lemma mem_seenAfter (seen xs : List String) (a : String) :
    a ∈ seenAfter seen xs ↔ a ∈ seen ∨ a ∈ xs := by
  induction xs generalizing seen with
  | nil => simp [seenAfter]
  | cons x xs ih =>
    by_cases h : seen.contains x
    · have hx : x ∈ seen := (contains_iff_mem _ _).mp h
      rw [seenAfter, if_pos h, ih]
      simp only [List.mem_cons]
      constructor
      · tauto
      · rintro (h1 | rfl | h1) <;> tauto
    · rw [seenAfter, if_neg h, ih]
      simp only [List.mem_cons]
      tauto

lemma dictAppendAll_cons {α : Type} (m : List (String × List α)) (k : String)
    (ks : List String) (v : α) :
    dictAppendAll m (k :: ks) v = dictAppendAll (dictAppend m k v) ks v := rfl

lemma dictGet_dictAppendAll_not_mem {α : Type} {name : String} {ks : List String}
    (h : ¬ name ∈ ks) (m : List (String × List α)) (v : α) :
    dictGet (dictAppendAll m ks v) name = dictGet m name := by
  induction ks generalizing m with
  | nil => rfl
  | cons k ks ih =>
    rw [dictAppendAll_cons, ih (fun hm => h (List.mem_cons_of_mem _ hm))]
    apply dictGet_dictAppend_ne
    intro he
    exact h (by rw [he]; exact List.mem_cons_self _ _)

lemma dictKeys_dictAppendAll {α : Type} (v : α) (ks : List String) :
    ∀ m : List (String × List α),
    dictKeys (dictAppendAll m ks v) = dictKeys m ++ dedupFirstAux (dictKeys m) ks := by
  induction ks with
  | nil => intro m; simp [dictAppendAll, dedupFirstAux]
  | cons k ks ih =>
    intro m
    rw [dictAppendAll_cons, ih, dictKeys_dictAppend]
    by_cases h : k ∈ dictKeys m
    · have hc : (dictKeys m).contains k = true := (contains_iff_mem _ _).mpr h
      rw [if_pos h, dedupFirstAux, if_pos hc]
    · have hc : ¬ (dictKeys m).contains k = true := fun hb => h ((contains_iff_mem _ _).mp hb)
      rw [if_neg h, dedupFirstAux, if_neg hc]
      rw [dedupFirstAux_congr (dictKeys m ++ [k]) (k :: dictKeys m)
        (fun x => by simp only [List.mem_append, List.mem_cons, List.mem_singleton]; tauto) ks]
      simp

/-- The `_extract_themes` loop body appends the description under each of its
matched theme names, in declaration order. -/
lemma themeStep_eq_appendAll (acc : List (String × List String)) (d : String) :
    NarrativeSummarizer.themeStep acc d =
      dictAppendAll acc (NarrativeSummarizer.namesFor d) d := by
  unfold NarrativeSummarizer.themeStep NarrativeSummarizer.namesFor
  by_cases h1 : NarrativeSummarizer.anyTermIn NarrativeSummarizer.authTerms (pyLower d) = true <;>
  by_cases h2 : NarrativeSummarizer.anyTermIn NarrativeSummarizer.apiTerms (pyLower d) = true <;>
  by_cases h3 : NarrativeSummarizer.anyTermIn NarrativeSummarizer.uiTerms (pyLower d) = true <;>
  by_cases h4 : NarrativeSummarizer.anyTermIn NarrativeSummarizer.perfTerms (pyLower d) = true <;>
  by_cases h5 : NarrativeSummarizer.anyTermIn NarrativeSummarizer.dataTerms (pyLower d) = true <;>
    simp [h1, h2, h3, h4, h5, dictAppendAll]

lemma dictGet_themeStep_auth (acc : List (String × List String)) (d : String) :
    dictGet (NarrativeSummarizer.themeStep acc d) "authentication" =
      if NarrativeSummarizer.anyTermIn NarrativeSummarizer.authTerms (pyLower d) then
        some ((dictGet acc "authentication").getD [] ++ [d])
      else dictGet acc "authentication" := by
  rw [themeStep_eq_appendAll]
  unfold NarrativeSummarizer.namesFor
  by_cases h1 : NarrativeSummarizer.anyTermIn NarrativeSummarizer.authTerms (pyLower d) = true <;>
  by_cases h2 : NarrativeSummarizer.anyTermIn NarrativeSummarizer.apiTerms (pyLower d) = true <;>
  by_cases h3 : NarrativeSummarizer.anyTermIn NarrativeSummarizer.uiTerms (pyLower d) = true <;>
  by_cases h4 : NarrativeSummarizer.anyTermIn NarrativeSummarizer.perfTerms (pyLower d) = true <;>
  by_cases h5 : NarrativeSummarizer.anyTermIn NarrativeSummarizer.dataTerms (pyLower d) = true <;>
    simp [h1, h2, h3, h4, h5, dictAppendAll, dictGet_dictAppend_ne, dictGet_dictAppend_self]

lemma dictGet_themeStep_api (acc : List (String × List String)) (d : String) :
    dictGet (NarrativeSummarizer.themeStep acc d) "api" =
      if NarrativeSummarizer.anyTermIn NarrativeSummarizer.apiTerms (pyLower d) then
        some ((dictGet acc "api").getD [] ++ [d])
      else dictGet acc "api" := by
  rw [themeStep_eq_appendAll]
  unfold NarrativeSummarizer.namesFor
  by_cases h1 : NarrativeSummarizer.anyTermIn NarrativeSummarizer.authTerms (pyLower d) = true <;>
  by_cases h2 : NarrativeSummarizer.anyTermIn NarrativeSummarizer.apiTerms (pyLower d) = true <;>
  by_cases h3 : NarrativeSummarizer.anyTermIn NarrativeSummarizer.uiTerms (pyLower d) = true <;>
  by_cases h4 : NarrativeSummarizer.anyTermIn NarrativeSummarizer.perfTerms (pyLower d) = true <;>
  by_cases h5 : NarrativeSummarizer.anyTermIn NarrativeSummarizer.dataTerms (pyLower d) = true <;>
    simp [h1, h2, h3, h4, h5, dictAppendAll, dictGet_dictAppend_ne, dictGet_dictAppend_self]

lemma dictGet_themeStep_ui (acc : List (String × List String)) (d : String) :
    dictGet (NarrativeSummarizer.themeStep acc d) "ui" =
      if NarrativeSummarizer.anyTermIn NarrativeSummarizer.uiTerms (pyLower d) then
        some ((dictGet acc "ui").getD [] ++ [d])
      else dictGet acc "ui" := by
  rw [themeStep_eq_appendAll]
  unfold NarrativeSummarizer.namesFor
  by_cases h1 : NarrativeSummarizer.anyTermIn NarrativeSummarizer.authTerms (pyLower d) = true <;>
  by_cases h2 : NarrativeSummarizer.anyTermIn NarrativeSummarizer.apiTerms (pyLower d) = true <;>
  by_cases h3 : NarrativeSummarizer.anyTermIn NarrativeSummarizer.uiTerms (pyLower d) = true <;>
  by_cases h4 : NarrativeSummarizer.anyTermIn NarrativeSummarizer.perfTerms (pyLower d) = true <;>
  by_cases h5 : NarrativeSummarizer.anyTermIn NarrativeSummarizer.dataTerms (pyLower d) = true <;>
    simp [h1, h2, h3, h4, h5, dictAppendAll, dictGet_dictAppend_ne, dictGet_dictAppend_self]

lemma dictGet_themeStep_performance (acc : List (String × List String)) (d : String) :
    dictGet (NarrativeSummarizer.themeStep acc d) "performance" =
      if NarrativeSummarizer.anyTermIn NarrativeSummarizer.perfTerms (pyLower d) then
        some ((dictGet acc "performance").getD [] ++ [d])
      else dictGet acc "performance" := by
  rw [themeStep_eq_appendAll]
  unfold NarrativeSummarizer.namesFor
  by_cases h1 : NarrativeSummarizer.anyTermIn NarrativeSummarizer.authTerms (pyLower d) = true <;>
  by_cases h2 : NarrativeSummarizer.anyTermIn NarrativeSummarizer.apiTerms (pyLower d) = true <;>
  by_cases h3 : NarrativeSummarizer.anyTermIn NarrativeSummarizer.uiTerms (pyLower d) = true <;>
  by_cases h4 : NarrativeSummarizer.anyTermIn NarrativeSummarizer.perfTerms (pyLower d) = true <;>
  by_cases h5 : NarrativeSummarizer.anyTermIn NarrativeSummarizer.dataTerms (pyLower d) = true <;>
    simp [h1, h2, h3, h4, h5, dictAppendAll, dictGet_dictAppend_ne, dictGet_dictAppend_self]

lemma dictGet_themeStep_data (acc : List (String × List String)) (d : String) :
    dictGet (NarrativeSummarizer.themeStep acc d) "data" =
      if NarrativeSummarizer.anyTermIn NarrativeSummarizer.dataTerms (pyLower d) then
        some ((dictGet acc "data").getD [] ++ [d])
      else dictGet acc "data" := by
  rw [themeStep_eq_appendAll]
  unfold NarrativeSummarizer.namesFor
  by_cases h1 : NarrativeSummarizer.anyTermIn NarrativeSummarizer.authTerms (pyLower d) = true <;>
  by_cases h2 : NarrativeSummarizer.anyTermIn NarrativeSummarizer.apiTerms (pyLower d) = true <;>
  by_cases h3 : NarrativeSummarizer.anyTermIn NarrativeSummarizer.uiTerms (pyLower d) = true <;>
  by_cases h4 : NarrativeSummarizer.anyTermIn NarrativeSummarizer.perfTerms (pyLower d) = true <;>
  by_cases h5 : NarrativeSummarizer.anyTermIn NarrativeSummarizer.dataTerms (pyLower d) = true <;>
    simp [h1, h2, h3, h4, h5, dictAppendAll, dictGet_dictAppend_ne, dictGet_dictAppend_self]

lemma dictGet_extract_fold (name : String) (terms : List String)
    (hstep : ∀ acc d, dictGet (NarrativeSummarizer.themeStep acc d) name =
      if NarrativeSummarizer.anyTermIn terms (pyLower d) then
        some ((dictGet acc name).getD [] ++ [d])
      else dictGet acc name)
    (ds : List String) :
    ∀ acc : List (String × List String),
    dictGet (ds.foldl NarrativeSummarizer.themeStep acc) name =
      match dictGet acc name with
      | some vs =>
        some (vs ++ ds.filter (fun d => NarrativeSummarizer.anyTermIn terms (pyLower d)))
      | none =>
        if (ds.filter (fun d => NarrativeSummarizer.anyTermIn terms (pyLower d))).isEmpty
        then none
        else some (ds.filter (fun d => NarrativeSummarizer.anyTermIn terms (pyLower d))) := by
  induction ds with
  | nil =>
    intro acc
    cases h : dictGet acc name <;> simp [h]
  | cons d ds ih =>
    intro acc
    rw [List.foldl_cons, ih, hstep]
    by_cases hd : NarrativeSummarizer.anyTermIn terms (pyLower d) = true
    · rw [if_pos hd]
      cases h : dictGet acc name <;> simp [h, List.filter_cons, hd]
    · rw [if_neg hd]
      cases h : dictGet acc name <;> simp [h, List.filter_cons, hd]

lemma dictKeys_extract_fold (ds : List String) :
    ∀ acc : List (String × List String),
    dictKeys (ds.foldl NarrativeSummarizer.themeStep acc) =
      dictKeys acc ++
        dedupFirstAux (dictKeys acc) (ds.flatMap NarrativeSummarizer.namesFor) := by
  induction ds with
  | nil => intro acc; simp [dedupFirstAux]
  | cons d ds ih =>
    intro acc
    rw [List.foldl_cons, ih, themeStep_eq_appendAll, dictKeys_dictAppendAll,
      List.flatMap_cons, dedupFirstAux_append, List.append_assoc]
    congr 1
    congr 1
    apply dedupFirstAux_congr
    intro x
    rw [List.mem_append, mem_dedupFirstAux, mem_seenAfter]
    tauto

/-- **C3 (amended).** For every description list: (i) each theme of the
table is bound in the output exactly to the input-order subsequence of
descriptions matching one of its keywords, and is absent when nothing
matches (so a description joins every theme it matches, several or none, and
input order is preserved within a theme); (ii) the mapping lists its theme
names in first-match encounter order — the first-occurrence de-duplication of
the per-description matched names — not in general in declaration order. -/
theorem extract_themes_characterization :
    (∀ ds : List String, ∀ p ∈ NarrativeSummarizer.themeTable,
      dictGet (NarrativeSummarizer.extractThemes ds) p.1 =
        (if (ds.filter (fun d => NarrativeSummarizer.anyTermIn p.2 (pyLower d))).isEmpty
         then none
         else some (ds.filter (fun d => NarrativeSummarizer.anyTermIn p.2 (pyLower d))))) ∧
    (∀ ds : List String,
      dictKeys (NarrativeSummarizer.extractThemes ds) =
        dedupFirst (ds.flatMap NarrativeSummarizer.namesFor)) := by
  constructor
  · intro ds p hp
    have hp2 : p = ("authentication", NarrativeSummarizer.authTerms) ∨
        p = ("api", NarrativeSummarizer.apiTerms) ∨
        p = ("ui", NarrativeSummarizer.uiTerms) ∨
        p = ("performance", NarrativeSummarizer.perfTerms) ∨
        p = ("data", NarrativeSummarizer.dataTerms) := by
      simpa [NarrativeSummarizer.themeTable] using hp
    rcases hp2 with rfl | rfl | rfl | rfl | rfl
    · simpa [dictGet] using
        dictGet_extract_fold "authentication" NarrativeSummarizer.authTerms
          dictGet_themeStep_auth ds []
    · simpa [dictGet] using
        dictGet_extract_fold "api" NarrativeSummarizer.apiTerms
          dictGet_themeStep_api ds []
    · simpa [dictGet] using
        dictGet_extract_fold "ui" NarrativeSummarizer.uiTerms
          dictGet_themeStep_ui ds []
    · simpa [dictGet] using
        dictGet_extract_fold "performance" NarrativeSummarizer.perfTerms
          dictGet_themeStep_performance ds []
    · simpa [dictGet] using
        dictGet_extract_fold "data" NarrativeSummarizer.dataTerms
          dictGet_themeStep_data ds []
  · intro ds
    have h := dictKeys_extract_fold ds []
    simpa [dedupFirst, dictKeys] using h

/-- **C3, counterexample.** The mapping does not list themes in the theme
table's declaration order: on `["new api", "new auth"]` the output keys are
`["api", "authentication"]` (first-match order), while the table declares
`authentication` before `api`. -/
theorem extract_themes_not_declaration_order :
    NarrativeSummarizer.extractThemes ["new api", "new auth"] =
      [("api", ["new api"]), ("authentication", ["new auth"])] ∧
    NarrativeSummarizer.themeTable.map Prod.fst =
      ["authentication", "api", "ui", "performance", "data"] ∧
    (NarrativeSummarizer.extractThemes ["new api", "new auth"]).map Prod.fst ≠
      (NarrativeSummarizer.themeTable.map Prod.fst).filter
        (fun t => t ∈ (NarrativeSummarizer.extractThemes ["new api", "new auth"]).map
          Prod.fst) := by
  refine ⟨by decide, by decide, by decide⟩

/-- Witness for the amended C3 at a concrete input and theme. -/
theorem extract_themes_witness :
    dictGet (NarrativeSummarizer.extractThemes ["new api", "new auth"]) "authentication" =
      (if ((["new api", "new auth"] : List String).filter
            (fun d => NarrativeSummarizer.anyTermIn NarrativeSummarizer.authTerms
              (pyLower d))).isEmpty
       then none
       else some ((["new api", "new auth"] : List String).filter
            (fun d => NarrativeSummarizer.anyTermIn NarrativeSummarizer.authTerms
              (pyLower d)))) :=
  extract_themes_characterization.1 ["new api", "new auth"]
    ("authentication", NarrativeSummarizer.authTerms) (by decide)

end ReadmeGen
